import Mathlib

/-
Shallow embedding of the Go package `perceptualdiff` (files `metric.go`,
`laplacian_pyramid.go` and the metric math/color functions) and proofs about
it.

Modelling conventions:
- Go `float64` values are modelled as exact real numbers (`ℝ`); `math.Pow`
  is modelled by `Real.rpow` (they agree on the nonnegative bases the code
  uses), `math.Tan` by `Real.tan`, `math.Log10 x` by `Real.logb 10 x`.
- A Go `image.Image` is modelled by `GoImage`: a width, a height and the
  `At(x,y).RGBA()` quadruple for every coordinate, with bounds starting at
  `(0, 0)`.  The four channel values are alpha-premultiplied naturals in
  `[0, 0xffff]`.
- A Go `[]float64` channel buffer of length `width*height` is modelled as a
  total function `ℤ → ℝ`.  Indices in `[0, width*height)` carry the slice's
  contents; the value at any other index is unconstrained by the program
  (in Go such an access panics), so theorems about buffers built by the
  pipeline fix those values to `0` while universally quantified buffers
  leave them arbitrary.
- The two concurrent row loops of `YeeCompare` write disjoint ranges and
  join before the accumulators are read, so they are modelled by their
  sequential result: sums and counts over all pixels.
-/

namespace Perceptualdiff

/-- Maximum number of pyramid levels (`laplacian_pyramid.go`, `MAX_PYR_LEVELS = 8`). -/
def MAX_PYR_LEVELS : ℕ := 8

/-- Result string constants from `metric.go`. -/
def ReasonDimensionMismatch : String := "Image dimensions do not match"

def ReasonBinaryIdentical : String := "Images are binary identical"

def ReasonIndistinguishable : String := "Images are perceptually indistinguishable"

def ReasonVisiblyDifferent : String := "Images are visibly different"

/-- An image: width, height and the `At(x,y).RGBA()` channel quadruple
(R, G, B, A), each in `[0, 0xffff]`.  Bounds start at `(0,0)`. -/
structure GoImage where
  width : ℕ
  height : ℕ
  pixel : ℕ → ℕ → ℕ × ℕ × ℕ × ℕ

/-- Comparison parameters (`metric.go`, `Parameters`). -/
structure Parameters where
  LuminanceOnly : Bool
  FieldOfView : ℝ
  Gamma : ℝ
  Luminance : ℝ
  ThresholdPixels : ℕ
  ColorFactor : ℝ

/-- Result of a comparison (`metric.go`, `CompareResult`).  The diff bitmap
is `none` when the Go code leaves the `*image.RGBA` pointer `nil`, and
`some f` with `f x y` the RGBA color written at `(x, y)` otherwise. -/
structure CompareResult where
  Reason : String
  NumPixelsFailed : ℕ
  ErrorSum : ℝ
  ImageDifference : Option (ℕ → ℕ → ℕ × ℕ × ℕ × ℕ)

/-! ### Colorimetry (metric math & color funcs) -/

/-- Adobe RGB (1998) to XYZ matrix. -/
noncomputable def adobe_rgb_to_xyz (r g b : ℝ) : ℝ × ℝ × ℝ :=
  (r * 0.576700 + g * 0.185556 + b * 0.188212,
   r * 0.297361 + g * 0.627355 + b * 0.0752847,
   r * 0.0270328 + g * 0.0706879 + b * 0.991248)

/-- Reference white point: XYZ of RGB = (1,1,1), computed once at `init`. -/
noncomputable def white : ℝ × ℝ × ℝ := adobe_rgb_to_xyz 1 1 1

/-- The piecewise cube-root/linear branch of the Lab conversion applied to
each of the three ratios in `xyz_to_lab`. -/
noncomputable def labF (r : ℝ) : ℝ :=
  if r > 216 / 24389 then r ^ ((1 : ℝ) / 3) else ((24389 / 27) * r + 16) / 116

/-- XYZ to CIE L*a*b* against the reference `white` point. -/
noncomputable def xyz_to_lab (x y z : ℝ) : ℝ × ℝ × ℝ :=
  (116 * labF (y / white.2.1) - 16,
   500 * (labF (x / white.1) - labF (y / white.2.1)),
   200 * (labF (y / white.2.1) - labF (z / white.2.2)))

noncomputable def to_radians (degrees : ℝ) : ℝ := degrees * Real.pi / 180

noncomputable def to_degrees (radians : ℝ) : ℝ := radians * 180 / Real.pi

/-- The local `r` of `tvi` as a function of `log_a = log10(adaptation_luminance)`:
the 5-branch piecewise law of Ward Larson. -/
noncomputable def tviR (log_a : ℝ) : ℝ :=
  if log_a < -3.94 then -2.86
  else if log_a < -1.44 then (0.405 * log_a + 1.6) ^ (2.18 : ℝ) - 2.86
  else if log_a < -0.0184 then log_a - 0.395
  else if log_a < 1.9 then (0.249 * log_a + 0.65) ^ (2.7 : ℝ) - 0.72
  else log_a - 1.255

/-- Threshold vs Intensity function (Ward Larson Siggraph 1997):
`10^r` with `r = tviR (log10 adaptation_luminance)`. -/
noncomputable def tvi (adaptation_luminance : ℝ) : ℝ :=
  (10 : ℝ) ^ tviR (Real.logb 10 adaptation_luminance)

/-- Contrast sensitivity function (Barten SPIE 1989). -/
noncomputable def csf (cpd lum : ℝ) : ℝ :=
  let a := 440 * (1 + 0.7 / lum) ^ (-0.2 : ℝ)
  let b := 0.3 * (1 + 100 / lum) ^ (0.15 : ℝ)
  a * cpd * Real.exp (-b * cpd) * Real.sqrt (1 + 0.06 * Real.exp (b * cpd))

/-- Visual masking function (Daly 1993). -/
noncomputable def mask (contrast : ℝ) : ℝ :=
  let a := (392.498 * contrast) ^ (0.7 : ℝ)
  let b := (0.0153 * a) ^ (4.0 : ℝ)
  (1 + b) ^ (0.25 : ℝ)

/-- Loop body of `adaptation`: `fuel` iterations remain, `i` is the loop
index, `pixels` the running doubling count (`2^i`).  When the loop runs to
completion the last level set is `i - 1 = 7`. -/
noncomputable def adaptationAux (n : ℝ) : ℕ → ℕ → ℝ → ℕ
  | 0, i, _ => i - 1
  | fuel + 1, i, pixels => if pixels > n then i else adaptationAux n fuel (i + 1) (pixels * 2)

/-- `adaptation` from the metric math file: starting from one pixel and
doubling per level, return the first level (0..7) whose pixel count exceeds
`num_one_degree_pixels`, or 7 if none does. -/
noncomputable def adaptation (num_one_degree_pixels : ℝ) : ℕ :=
  adaptationAux num_one_degree_pixels 8 0 1

/-! ### Laplacian pyramid (`laplacian_pyramid.go`) -/

/-- The 5-tap convolution kernel `[0.05, 0.25, 0.4, 0.25, 0.05]`. -/
noncomputable def kernel : ℕ → ℝ
  | 0 => 0.05
  | 1 => 0.25
  | 2 => 0.4
  | 3 => 0.25
  | _ => 0.05

/-- The two-step boundary reflection of `convolve`: take the absolute value
of the offset coordinate, then if still `≥ dim` reflect around the far edge
via `2*dim - idx - 1`. -/
def reflect (dim : ℕ) (t : ℤ) : ℤ :=
  if (dim : ℤ) ≤ |t| then 2 * (dim : ℤ) - |t| - 1 else |t|

/-- The value written by `convolve` into `a[y*width+x]`: the 5×5 kernel
outer product against the reflected neighborhood of `b` (loop variables
`i`, `j` of the source range over `-2..2`; here `i`, `j` range over `0..4`
and the offset is `i - 2`). -/
noncomputable def convolveAt (w h : ℕ) (b : ℤ → ℝ) (x y : ℤ) : ℝ :=
  ∑ i ∈ Finset.range 5, ∑ j ∈ Finset.range 5,
    kernel i * kernel j *
      b (reflect h (y + (j : ℤ) - 2) * (w : ℤ) + reflect w (x + (i : ℤ) - 2))

/-- The successive pyramid levels of `newPyramid`: level 0 is the input
buffer; each later level is the input again when `width*height ≤ 1`
(degenerate branch) and otherwise the convolution of the previous level,
read back at flat index `idx` via `x = idx % w`, `y = idx / w`. -/
noncomputable def pyrLevels (image : ℤ → ℝ) (w h : ℕ) : ℕ → ℤ → ℝ
  | 0 => image
  | k + 1 =>
    if w * h ≤ 1 then image
    else fun idx => convolveAt w h (pyrLevels image w h k) (idx % (w : ℤ)) (idx / (w : ℤ))

/-- A Laplacian pyramid (`laplacian_pyramid.go`, `pyramid`). -/
structure pyramid where
  width : ℕ
  height : ℕ
  levels : ℕ → ℤ → ℝ

/-- `newPyramid` from `laplacian_pyramid.go`. -/
noncomputable def newPyramid (image : ℤ → ℝ) (width height : ℕ) : pyramid :=
  ⟨width, height, pyrLevels image width height⟩

/-- `get_value`: bounds-trusted accessor at flat index `x + y*width`. -/
noncomputable def get_value (l : pyramid) (x y level : ℕ) : ℝ :=
  l.levels level ((x : ℤ) + (y : ℤ) * (l.width : ℤ))

/-! ### Comparator orchestrator (`metric.go`, `YeeCompare`) -/

/-- XYZ of one pixel after gamma decoding its channels to `[0,1]`
(`(raw/0xffff)^gamma`). -/
noncomputable def pixelXYZ (gamma : ℝ) (px : ℕ × ℕ × ℕ × ℕ) : ℝ × ℝ × ℝ :=
  adobe_rgb_to_xyz (((px.1 : ℝ) / 65535) ^ gamma) (((px.2.1 : ℝ) / 65535) ^ gamma)
    (((px.2.2.1 : ℝ) / 65535) ^ gamma)

/-- The luminance buffer entry for one pixel: the XYZ `Y` component scaled
by the configured white `Luminance`. -/
noncomputable def lumOfPixel (gamma L : ℝ) (px : ℕ × ℕ × ℕ × ℕ) : ℝ :=
  (pixelXYZ gamma px).2.1 * L

/-- The luminance buffer (`a_lum` / `b_lum`): row-major, index
`i = x + y*width`.  Valid indices hold the converted pixel; any other index
is outside the Go slice. -/
noncomputable def lumBuffer (img : GoImage) (gamma L : ℝ) : ℤ → ℝ :=
  fun i =>
    if 0 ≤ i ∧ i < ((img.width * img.height : ℕ) : ℤ) then
      lumOfPixel gamma L (img.pixel (i.toNat % img.width) (i.toNat / img.width))
    else 0

/-- The chrominance `a` buffer (`a_a` / `b_a`): the Lab `a` component. -/
noncomputable def chromaABuffer (img : GoImage) (gamma : ℝ) : ℤ → ℝ :=
  fun i =>
    if 0 ≤ i ∧ i < ((img.width * img.height : ℕ) : ℤ) then
      (xyz_to_lab (pixelXYZ gamma (img.pixel (i.toNat % img.width) (i.toNat / img.width))).1
          (pixelXYZ gamma (img.pixel (i.toNat % img.width) (i.toNat / img.width))).2.1
          (pixelXYZ gamma (img.pixel (i.toNat % img.width) (i.toNat / img.width))).2.2).2.1
    else 0

/-- The chrominance `b` buffer (`a_b` / `b_b`): the Lab `b` component. -/
noncomputable def chromaBBuffer (img : GoImage) (gamma : ℝ) : ℤ → ℝ :=
  fun i =>
    if 0 ≤ i ∧ i < ((img.width * img.height : ℕ) : ℤ) then
      (xyz_to_lab (pixelXYZ gamma (img.pixel (i.toNat % img.width) (i.toNat / img.width))).1
          (pixelXYZ gamma (img.pixel (i.toNat % img.width) (i.toNat / img.width))).2.1
          (pixelXYZ gamma (img.pixel (i.toNat % img.width) (i.toNat / img.width))).2.2).2.2
    else 0

/-- `num_one_degree_pixels = to_degrees(2 * tan(FieldOfView * to_radians(0.5)))`. -/
noncomputable def numOneDegreePixels (args : Parameters) : ℝ :=
  to_degrees (2 * Real.tan (args.FieldOfView * to_radians 0.5))

/-- `pixels_per_degree = width / num_one_degree_pixels`. -/
noncomputable def pixelsPerDegree (w : ℕ) (args : Parameters) : ℝ :=
  (w : ℝ) / numOneDegreePixels args

/-- The cycles-per-degree sequence: `cpd[0] = 0.5 * pixels_per_degree`,
`cpd[i] = 0.5 * cpd[i-1]`. -/
noncomputable def cpdSeq (ppd : ℝ) : ℕ → ℝ
  | 0 => 0.5 * ppd
  | i + 1 => 0.5 * cpdSeq ppd i

/-- `csf_max = csf(3.248, 100.0)`. -/
noncomputable def csf_max : ℝ := csf 3.248 100

/-- `f_freq[i] = csf_max / csf(cpd[i], 100.0)` for `i < MAX_PYR_LEVELS - 2`. -/
noncomputable def f_freq (w : ℕ) (args : Parameters) (i : ℕ) : ℝ :=
  csf_max / csf (cpdSeq (pixelsPerDegree w args) i) 100

/-- The luminance pyramid built for one image
(`newPyramid(a_lum, w, h)` resp. `newPyramid(b_lum, w, h)`). -/
noncomputable def luminancePyramid (img : GoImage) (args : Parameters) : pyramid :=
  newPyramid (lumBuffer img args.Gamma args.Luminance) img.width img.height

/-- Per-pixel adaptation luminance:
`max((la(x,y,al) + lb(x,y,al)) * 0.5, 1e-5)`. -/
noncomputable def adaptAt (la lb : pyramid) (al x y : ℕ) : ℝ :=
  max ((get_value la x y al + get_value lb x y al) * 0.5) 1e-5

/-- Per-pixel, per-level contrast: `max(n1, n2) / max(max(d1, d2), 1e-5)`. -/
noncomputable def contrastAt (la lb : pyramid) (x y i : ℕ) : ℝ :=
  max |get_value la x y i - get_value la x y (i + 1)|
      |get_value lb x y i - get_value lb x y (i + 1)| /
    max (max |get_value la x y (i + 2)| |get_value lb x y (i + 2)|) 1e-5

/-- Per-pixel masking factor: the contrast/frequency/masking sum divided by
the contrast sum (floored at `1e-5`), clamped to `[1, 10]`. -/
noncomputable def factorAt (la lb : pyramid) (cpd ff : ℕ → ℝ) (al x y : ℕ) : ℝ :=
  min
    (max
      ((∑ i ∈ Finset.range (MAX_PYR_LEVELS - 2),
          contrastAt la lb x y i * ff i *
            mask (contrastAt la lb x y i * csf (cpd i) (adaptAt la lb al x y))) /
        max (∑ i ∈ Finset.range (MAX_PYR_LEVELS - 2), contrastAt la lb x y i) 1e-5)
      1)
    10

/-- Per-pixel luminance delta: `|la(x,y,0) - lb(x,y,0)|`. -/
noncomputable def deltaAt (la lb : pyramid) (x y : ℕ) : ℝ :=
  |get_value la x y 0 - get_value lb x y 0|

/-- `color_scale`: the configured `ColorFactor`, forced to 0 in scotopic
regions (`adapt < 10`). -/
noncomputable def colorScale (args : Parameters) (adapt : ℝ) : ℝ :=
  if adapt < 10 then 0 else args.ColorFactor

/-- Per-pixel chrominance delta `delta_e = (da*da + db*db) * color_scale`,
with `da`, `db` the differences of the chrominance buffers at
`index = y*w + x`. -/
noncomputable def deltaEAt (a b : GoImage) (args : Parameters) (adapt : ℝ) (x y : ℕ) : ℝ :=
  ((chromaABuffer a args.Gamma ((y : ℤ) * (a.width : ℤ) + (x : ℤ)) -
      chromaABuffer b args.Gamma ((y : ℤ) * (a.width : ℤ) + (x : ℤ))) *
    (chromaABuffer a args.Gamma ((y : ℤ) * (a.width : ℤ) + (x : ℤ)) -
      chromaABuffer b args.Gamma ((y : ℤ) * (a.width : ℤ) + (x : ℤ))) +
   (chromaBBuffer a args.Gamma ((y : ℤ) * (a.width : ℤ) + (x : ℤ)) -
      chromaBBuffer b args.Gamma ((y : ℤ) * (a.width : ℤ) + (x : ℤ))) *
    (chromaBBuffer a args.Gamma ((y : ℤ) * (a.width : ℤ) + (x : ℤ)) -
      chromaBBuffer b args.Gamma ((y : ℤ) * (a.width : ℤ) + (x : ℤ)))) *
  colorScale args adapt

/-- A pixel fails the perceptual check when the luminance test fails, or —
unless `LuminanceOnly` — when the CIE delta E test fails. -/
def failProp (a b : GoImage) (args : Parameters) (x y : ℕ) : Prop :=
  deltaAt (luminancePyramid a args) (luminancePyramid b args) x y >
    factorAt (luminancePyramid a args) (luminancePyramid b args)
        (cpdSeq (pixelsPerDegree a.width args)) (f_freq a.width args)
        (adaptation (numOneDegreePixels args)) x y *
      tvi (adaptAt (luminancePyramid a args) (luminancePyramid b args)
        (adaptation (numOneDegreePixels args)) x y) ∨
  (args.LuminanceOnly = false ∧
    deltaEAt a b args
        (adaptAt (luminancePyramid a args) (luminancePyramid b args)
          (adaptation (numOneDegreePixels args)) x y) x y >
      factorAt (luminancePyramid a args) (luminancePyramid b args)
        (cpdSeq (pixelsPerDegree a.width args)) (f_freq a.width args)
        (adaptation (numOneDegreePixels args)) x y)

open scoped Classical in
/-- Final value of the atomic `pixels_failed` counter: the number of pixels
failing the perceptual check. -/
noncomputable def numFailed (a b : GoImage) (args : Parameters) : ℕ :=
  ∑ y ∈ Finset.range a.height, ∑ x ∈ Finset.range a.width,
    if failProp a b args x y then 1 else 0

open scoped Classical in
/-- Final value of the atomic `error_sum` accumulator: every pixel adds its
luminance `delta`, and — unless `LuminanceOnly` — its `delta_e`. -/
noncomputable def errorSumTotal (a b : GoImage) (args : Parameters) : ℝ :=
  ∑ y ∈ Finset.range a.height, ∑ x ∈ Finset.range a.width,
    (deltaAt (luminancePyramid a args) (luminancePyramid b args) x y +
      if args.LuminanceOnly = false then
        deltaEAt a b args
          (adaptAt (luminancePyramid a args) (luminancePyramid b args)
            (adaptation (numOneDegreePixels args)) x y) x y
      else 0)

open scoped Classical in
/-- The diff bitmap: opaque blue `(0,0,255,255)` for failing pixels, opaque
black `(0,0,0,255)` for passing ones. -/
noncomputable def diffImage (a b : GoImage) (args : Parameters) : ℕ → ℕ → ℕ × ℕ × ℕ × ℕ :=
  fun x y => if failProp a b args x y then (0, 0, 255, 255) else (0, 0, 0, 255)

/-- The binary-identity scan: every raw RGBA quadruple of `a`'s bounds
matches the one of `b`. -/
def binaryIdentical (a b : GoImage) : Bool :=
  decide (∀ y, y < a.height → ∀ x, x < a.width → a.pixel x y = b.pixel x y)

/-- `YeeCompare` from `metric.go`: dimension check, binary-identity fast
path, then the full perceptual pipeline. -/
noncomputable def YeeCompare (image_a image_b : GoImage) (args : Parameters) :
    Bool × CompareResult :=
  if (image_a.width, image_a.height) ≠ (image_b.width, image_b.height) then
    (false, ⟨ReasonDimensionMismatch, 0, 0, none⟩)
  else if binaryIdentical image_a image_b then
    (true, ⟨ReasonBinaryIdentical, 0, 0, none⟩)
  else
    (decide (numFailed image_a image_b args < args.ThresholdPixels),
      ⟨if numFailed image_a image_b args < args.ThresholdPixels then ReasonIndistinguishable
        else ReasonVisiblyDifferent,
        numFailed image_a image_b args,
        errorSumTotal image_a image_b args,
        some (diffImage image_a image_b args)⟩)

/-- The default parameters set in `init`. -/
noncomputable def DefaultParameters : Parameters :=
  { LuminanceOnly := false
    FieldOfView := 45.0
    Gamma := 2.2
    Luminance := 100.0
    ThresholdPixels := 100
    ColorFactor := 1.0 }

/-! ### Helper lemmas: the adaptation loop -/

lemma adaptationAux_le (n : ℝ) (fuel : ℕ) :
    ∀ (i : ℕ) (pixels : ℝ), adaptationAux n fuel i pixels ≤ i + fuel - 1 := by
  induction fuel with
  | zero => intro i pixels; simp [adaptationAux]
  | succ fuel ih =>
    intro i pixels
    rw [adaptationAux]
    split_ifs
    · omega
    · have h := ih (i + 1) (pixels * 2)
      omega

lemma adaptation_le_seven (n : ℝ) : adaptation n ≤ 7 := by
  have h := adaptationAux_le n 8 0 1
  simpa [adaptation] using h

lemma adaptationAux_spec (n : ℝ) (fuel : ℕ) :
    ∀ i : ℕ, (∀ j, j < i → (2 : ℝ) ^ j ≤ n) →
      (∀ j, j < adaptationAux n fuel i ((2 : ℝ) ^ i) → (2 : ℝ) ^ j ≤ n) ∧
        ((2 : ℝ) ^ adaptationAux n fuel i ((2 : ℝ) ^ i) > n ∨
          (adaptationAux n fuel i ((2 : ℝ) ^ i) = i + fuel - 1 ∧
            ∀ j, j < i + fuel → (2 : ℝ) ^ j ≤ n)) := by
  induction fuel with
  | zero =>
    intro i hmin
    rw [adaptationAux]
    exact ⟨fun j hj => hmin j (by omega), Or.inr ⟨by omega, fun j hj => hmin j (by omega)⟩⟩
  | succ fuel ih =>
    intro i hmin
    rw [adaptationAux]
    split_ifs with hgt
    · exact ⟨hmin, Or.inl hgt⟩
    · have hle : (2 : ℝ) ^ i ≤ n := not_lt.mp hgt
      have hmin' : ∀ j, j < i + 1 → (2 : ℝ) ^ j ≤ n := by
        intro j hj
        rcases Nat.lt_succ_iff_lt_or_eq.mp hj with h | h
        · exact hmin j h
        · subst h; exact hle
      have h2 : (2 : ℝ) ^ i * 2 = (2 : ℝ) ^ (i + 1) := (pow_succ 2 i).symm
      rw [h2]
      obtain ⟨hm, hrest⟩ := ih (i + 1) hmin'
      refine ⟨hm, ?_⟩
      rcases hrest with h | ⟨he, hall⟩
      · exact Or.inl h
      · exact Or.inr ⟨by omega, fun j hj => hall j (by omega)⟩

/-- Full characterization of `adaptation`: levels below the returned one
have pixel counts that do not exceed `n`, and the returned level either
exceeds `n` or is 7 with no level 0..7 exceeding `n`. -/
lemma adaptation_spec (n : ℝ) :
    adaptation n ≤ 7 ∧ (∀ j, j < adaptation n → (2 : ℝ) ^ j ≤ n) ∧
      ((2 : ℝ) ^ adaptation n > n ∨
        (adaptation n = 7 ∧ ∀ j, j < 8 → (2 : ℝ) ^ j ≤ n)) := by
  have hle := adaptationAux_le n 8 0 1
  have hspec := adaptationAux_spec n 8 0 (fun j hj => absurd hj (Nat.not_lt_zero j))
  rw [pow_zero] at hspec
  refine ⟨by simpa [adaptation] using hle, ?_, ?_⟩
  · exact hspec.1
  · simpa [adaptation] using hspec.2

/-! ### Claim theorems: adaptation and pyramid basics -/

/-- Claim C7: for every input `numOneDegreePixels`, `adaptation` returns the
smallest pyramid level index in 0..7 at which a pixel count starting at 1
and doubling per level (`2^i`) first exceeds the input, returning 7 when no
level in range exceeds it. -/
theorem C7_adaptation_smallest (n : ℝ) :
    adaptation n ≤ 7 ∧ (∀ j, j < adaptation n → (2 : ℝ) ^ j ≤ n) ∧
      ((2 : ℝ) ^ adaptation n > n ∨
        (adaptation n = 7 ∧ ∀ j, j < 8 → (2 : ℝ) ^ j ≤ n)) :=
  adaptation_spec n

/-- Claim C8: whenever `width*height ≤ 1`, every one of the 8 pyramid levels
is exactly the input buffer: the degenerate branch reuses it unchanged
instead of convolving. -/
theorem C8_degenerate_pyramid (image : ℤ → ℝ) (w h : ℕ) (hwh : w * h ≤ 1)
    (k : ℕ) (_hk : k < 8) : (newPyramid image w h).levels k = image := by
  clear _hk
  induction k with
  | zero => rfl
  | succ k ih =>
    show pyrLevels image w h (k + 1) = image
    rw [pyrLevels, if_pos hwh]

theorem C8_degenerate_pyramid_witness :
    (1 * 1 ≤ 1 ∧ 3 < 8) ∧
      (newPyramid (fun _ => (5 : ℝ)) 1 1).levels 3 = fun _ => (5 : ℝ) :=
  ⟨⟨by norm_num, by norm_num⟩,
    C8_degenerate_pyramid (fun _ => (5 : ℝ)) 1 1 (by norm_num) 3 (by norm_num)⟩

/-- The pyramid levels read by the per-pixel fusion loop of `YeeCompare`
for one pixel: the adaptation level (for `adapt`), level 0 (for `delta`),
and levels `i`, `i+1`, `i+2` for each `i < MAX_PYR_LEVELS - 2`. -/
def fuseAccessedLevels (al : ℕ) : List ℕ :=
  [al, 0] ++ (List.range (MAX_PYR_LEVELS - 2)).flatMap fun i => [i, i + 1, i + 2]

/-- Claim C9: during a compare call on `w × h` images, every `get_value`
invocation of the fusion loop at a pixel `(x, y)` with `x < w`, `y < h`
uses a level below `MAX_PYR_LEVELS = 8` and a flat index
`x + y*w ∈ [0, w*h)`, so the bounds-trusted accessor never indexes out of
range. -/
theorem C9_get_value_in_bounds (args : Parameters) (w h x y : ℕ)
    (hx : x < w) (hy : y < h) :
    (∀ lvl ∈ fuseAccessedLevels (adaptation (numOneDegreePixels args)),
      lvl < MAX_PYR_LEVELS) ∧
      0 ≤ x + y * w ∧ x + y * w < w * h := by
  refine ⟨?_, Nat.zero_le _, ?_⟩
  · intro lvl hl
    have hal := adaptation_le_seven (numOneDegreePixels args)
    show lvl < 8
    simp only [fuseAccessedLevels, MAX_PYR_LEVELS, List.mem_append, List.mem_cons,
      List.mem_flatMap, List.mem_range, List.not_mem_nil, or_false] at hl
    rcases hl with h | h | ⟨i, hi, h⟩ <;> omega
  · calc x + y * w < w + y * w := by omega
      _ = (y + 1) * w := by ring
      _ ≤ h * w := Nat.mul_le_mul_right w (by omega)
      _ = w * h := Nat.mul_comm h w

theorem C9_get_value_in_bounds_witness :
    (1 < 2 ∧ 1 < 2) ∧
      ((∀ lvl ∈ fuseAccessedLevels (adaptation (numOneDegreePixels DefaultParameters)),
        lvl < MAX_PYR_LEVELS) ∧
        0 ≤ 1 + 1 * 2 ∧ 1 + 1 * 2 < 2 * 2) :=
  ⟨⟨by norm_num, by norm_num⟩,
    C9_get_value_in_bounds DefaultParameters 2 2 1 1 (by norm_num) (by norm_num)⟩

/-! ### Claim theorems: short-circuit paths -/

/-- Claim C1: comparing any image against itself, under any configuration,
takes the binary-identity fast path: the result is `identical = true` with
`Reason = ReasonBinaryIdentical`. -/
theorem C1_identity (I : GoImage) (args : Parameters) :
    (YeeCompare I I args).1 = true ∧
      (YeeCompare I I args).2.Reason = ReasonBinaryIdentical := by
  have hdim : ¬((I.width, I.height) ≠ (I.width, I.height)) := by simp
  have hid : binaryIdentical I I = true := by simp [binaryIdentical]
  rw [YeeCompare, if_neg hdim, if_pos hid]
  exact ⟨rfl, rfl⟩

/-- Claim C2: for images whose widths or heights differ, the result is the
dimension-mismatch rejection — `identical = false`,
`Reason = ReasonDimensionMismatch`, zero counters and no diff bitmap —
regardless of pixel content and configuration. -/
theorem C2_dimension_guard (a b : GoImage) (args : Parameters)
    (h : a.width ≠ b.width ∨ a.height ≠ b.height) :
    YeeCompare a b args = (false, ⟨ReasonDimensionMismatch, 0, 0, none⟩) := by
  have hdim : (a.width, a.height) ≠ (b.width, b.height) := by
    intro heq
    rw [Prod.mk.injEq] at heq
    rcases h with h | h
    · exact h heq.1
    · exact h heq.2
  rw [YeeCompare, if_pos hdim]

theorem C2_dimension_guard_witness :
    ((⟨1, 1, fun _ _ => (0, 0, 0, 0)⟩ : GoImage).width ≠
        (⟨2, 1, fun _ _ => (0, 0, 0, 0)⟩ : GoImage).width ∨
      (⟨1, 1, fun _ _ => (0, 0, 0, 0)⟩ : GoImage).height ≠
        (⟨2, 1, fun _ _ => (0, 0, 0, 0)⟩ : GoImage).height) ∧
      YeeCompare ⟨1, 1, fun _ _ => (0, 0, 0, 0)⟩ ⟨2, 1, fun _ _ => (0, 0, 0, 0)⟩
          DefaultParameters =
        (false, ⟨ReasonDimensionMismatch, 0, 0, none⟩) :=
  ⟨Or.inl (by decide),
    C2_dimension_guard ⟨1, 1, fun _ _ => (0, 0, 0, 0)⟩ ⟨2, 1, fun _ _ => (0, 0, 0, 0)⟩
      DefaultParameters (Or.inl (by decide))⟩

/-- Claim C10: whenever `YeeCompare` terminates on a short-circuit path
(dimension mismatch or binary identity), the result carries
`NumPixelsFailed = 0`, `ErrorSum = 0` and no diff bitmap at all (`none`). -/
theorem C10_short_circuit_fields (a b : GoImage) (args : Parameters)
    (h : (YeeCompare a b args).2.Reason = ReasonDimensionMismatch ∨
      (YeeCompare a b args).2.Reason = ReasonBinaryIdentical) :
    (YeeCompare a b args).2.NumPixelsFailed = 0 ∧
      (YeeCompare a b args).2.ErrorSum = 0 ∧
      (YeeCompare a b args).2.ImageDifference = none := by
  by_cases hdim : (a.width, a.height) ≠ (b.width, b.height)
  · rw [YeeCompare, if_pos hdim]
    exact ⟨rfl, rfl, rfl⟩
  · by_cases hid : binaryIdentical a b
    · rw [YeeCompare, if_neg hdim, if_pos hid]
      exact ⟨rfl, rfl, rfl⟩
    · exfalso
      rw [YeeCompare, if_neg hdim, if_neg hid] at h
      rcases h with h | h <;> revert h <;>
        split_ifs <;>
          simp [ReasonIndistinguishable, ReasonVisiblyDifferent,
            ReasonDimensionMismatch, ReasonBinaryIdentical]

theorem C10_short_circuit_fields_witness :
    ((YeeCompare ⟨1, 1, fun _ _ => (0, 0, 0, 0)⟩ ⟨2, 1, fun _ _ => (0, 0, 0, 0)⟩
          DefaultParameters).2.Reason = ReasonDimensionMismatch ∨
      (YeeCompare ⟨1, 1, fun _ _ => (0, 0, 0, 0)⟩ ⟨2, 1, fun _ _ => (0, 0, 0, 0)⟩
          DefaultParameters).2.Reason = ReasonBinaryIdentical) ∧
      ((YeeCompare ⟨1, 1, fun _ _ => (0, 0, 0, 0)⟩ ⟨2, 1, fun _ _ => (0, 0, 0, 0)⟩
          DefaultParameters).2.NumPixelsFailed = 0 ∧
        (YeeCompare ⟨1, 1, fun _ _ => (0, 0, 0, 0)⟩ ⟨2, 1, fun _ _ => (0, 0, 0, 0)⟩
          DefaultParameters).2.ErrorSum = 0 ∧
        (YeeCompare ⟨1, 1, fun _ _ => (0, 0, 0, 0)⟩ ⟨2, 1, fun _ _ => (0, 0, 0, 0)⟩
          DefaultParameters).2.ImageDifference = none) := by
  have hreason : (YeeCompare ⟨1, 1, fun _ _ => (0, 0, 0, 0)⟩
      ⟨2, 1, fun _ _ => (0, 0, 0, 0)⟩ DefaultParameters).2.Reason =
      ReasonDimensionMismatch := by
    rw [YeeCompare, if_pos (by decide)]
  exact ⟨Or.inl hreason, C10_short_circuit_fields _ _ _ (Or.inl hreason)⟩

/-! ### Helper lemmas: convolution of uniform buffers -/

lemma reflect_bounds (d : ℕ) (t : ℤ) (hd : 2 ≤ d) (h1 : -2 ≤ t) (h2 : t ≤ (d : ℤ) + 1) :
    0 ≤ reflect d t ∧ reflect d t < (d : ℤ) := by
  unfold reflect
  rcases abs_cases t with ⟨he, hp⟩ | ⟨he, hp⟩ <;> rw [he] <;> split_ifs <;> omega


lemma kernel_sum_one : (∑ i ∈ Finset.range 5, kernel i) = 1 := by
  norm_num [Finset.sum_range_succ, kernel]

lemma kernel_double_sum_one :
    (∑ i ∈ Finset.range 5, ∑ j ∈ Finset.range 5, kernel i * kernel j) = 1 := by
  norm_num [Finset.sum_range_succ, kernel]

/-- When both dimensions are at least 2, the convolution at a valid pixel of
a buffer that is uniformly `c` on the valid index range yields `c`: every
reflected index is in range, and the 25 kernel weights sum to 1. -/
lemma convolveAt_const (w h : ℕ) (b : ℤ → ℝ) (c : ℝ) (hw : 2 ≤ w) (hh : 2 ≤ h)
    (hb : ∀ i : ℤ, 0 ≤ i → i < ((w * h : ℕ) : ℤ) → b i = c)
    (x y : ℤ) (hx0 : 0 ≤ x) (hx : x < (w : ℤ)) (hy0 : 0 ≤ y) (hy : y < (h : ℤ)) :
    convolveAt w h b x y = c := by
  unfold convolveAt
  have hterm : ∀ i ∈ Finset.range 5, ∀ j ∈ Finset.range 5,
      b (reflect h (y + (j : ℤ) - 2) * (w : ℤ) + reflect w (x + (i : ℤ) - 2)) = c := by
    intro i hi j hj
    rw [Finset.mem_range] at hi hj
    have hrx := reflect_bounds w (x + (i : ℤ) - 2) hw (by omega) (by omega)
    have hry := reflect_bounds h (y + (j : ℤ) - 2) hh (by omega) (by omega)
    apply hb
    · have := mul_nonneg hry.1 (show (0 : ℤ) ≤ (w : ℤ) by omega)
      omega
    · push_cast
      have h1 : reflect h (y + (j : ℤ) - 2) * (w : ℤ) + reflect w (x + (i : ℤ) - 2) <
          (reflect h (y + (j : ℤ) - 2) + 1) * (w : ℤ) := by
        have := hrx.2
        nlinarith
      have h2 : (reflect h (y + (j : ℤ) - 2) + 1) * (w : ℤ) ≤ (h : ℤ) * (w : ℤ) := by
        have := hry.2
        apply mul_le_mul_of_nonneg_right (by omega) (by omega)
      nlinarith
  calc (∑ i ∈ Finset.range 5, ∑ j ∈ Finset.range 5,
        kernel i * kernel j *
          b (reflect h (y + (j : ℤ) - 2) * (w : ℤ) + reflect w (x + (i : ℤ) - 2)))
      = ∑ i ∈ Finset.range 5, ∑ j ∈ Finset.range 5, kernel i * kernel j * c := by
        refine Finset.sum_congr rfl fun i hi => Finset.sum_congr rfl fun j hj => ?_
        rw [hterm i hi j hj]
    _ = (∑ i ∈ Finset.range 5, ∑ j ∈ Finset.range 5, kernel i * kernel j) * c := by
        rw [Finset.sum_mul]
        refine Finset.sum_congr rfl fun i _ => ?_
        rw [Finset.sum_mul]
    _ = c := by rw [kernel_double_sum_one, one_mul]

/-- All pyramid levels of a buffer uniformly `c` on the valid range remain
uniformly `c` there, when both dimensions are at least 2. -/
lemma pyrLevels_const (image : ℤ → ℝ) (w h : ℕ) (c : ℝ) (hw : 2 ≤ w) (hh : 2 ≤ h)
    (hb : ∀ i : ℤ, 0 ≤ i → i < ((w * h : ℕ) : ℤ) → image i = c) (k : ℕ) :
    ∀ i : ℤ, 0 ≤ i → i < ((w * h : ℕ) : ℤ) → pyrLevels image w h k i = c := by
  induction k with
  | zero => exact hb
  | succ k ih =>
    intro i hi0 hi
    have hwh : ¬(w * h ≤ 1) := by
      have := Nat.mul_le_mul hw hh
      omega
    rw [pyrLevels, if_neg hwh]
    have hwpos : (0 : ℤ) < (w : ℤ) := by omega
    apply convolveAt_const w h _ c hw hh ih
    · exact Int.emod_nonneg i (by omega)
    · exact Int.emod_lt_of_pos i hwpos
    · exact Int.ediv_nonneg hi0 (by omega)
    · rw [Int.ediv_lt_iff_lt_mul hwpos]
      push_cast at hi ⊢
      linarith [hi, mul_comm (h : ℤ) (w : ℤ)]

/-! ### Claim C6: uniform buffers through the pyramid -/

/-- The 1×2 uniform buffer used to refute claim C6 at degenerate
dimensions: it is 0 on the two valid indices, and carries an arbitrary
other value (1) outside them, where the Go slice has no element at all —
the convolution at a 1-wide image computes `nx = 2*1 - 2 - 1 = -1` and
reads `b[ny*width - 1]`, which for `ny = 0` is the out-of-range index `-1`
(a runtime panic in Go). -/
noncomputable def c6buf : ℤ → ℝ := fun i => if 0 ≤ i ∧ i < 2 then 0 else 1

/-- Claim C6 counterexample: for the uniform 1×2 buffer the first pyramid
level does not equal the constant at pixel (0,0) — the convolution reaches
outside the valid index range (where Go panics), so the claim fails for
dimensions where one side is 1 and the other exceeds 1. -/
theorem C6_counterexample :
    (∀ i : ℤ, 0 ≤ i → i < ((1 * 2 : ℕ) : ℤ) → c6buf i = 0) ∧
      get_value (newPyramid c6buf 1 2) 0 0 1 ≠ 0 := by
  constructor
  · intro i hi0 hi
    have h2 : i < 2 := by omega
    simp only [c6buf]
    rw [if_pos ⟨hi0, h2⟩]
  · show pyrLevels c6buf 1 2 1 ((0 : ℤ) + 0 * 1) ≠ 0
    rw [pyrLevels, if_neg (by norm_num)]
    norm_num [convolveAt, pyrLevels, Finset.sum_range_succ, kernel, reflect, c6buf]

/-- Claim C6 (amended): for every uniform constant-valued input buffer
whose dimensions are either both at least 2 or degenerate
(`width*height ≤ 1`), every pyramid level equals that constant at every
valid coordinate — the 5-tap kernel weights sum to 1, so the squared sum
over the 5×5 outer product is 1 — but not for `1 × n` / `n × 1` buffers
with `n ≥ 2`, where the reflected convolution index leaves the buffer. -/
theorem C6_uniform_pyramid (image : ℤ → ℝ) (w h : ℕ) (c : ℝ)
    (hb : ∀ i : ℤ, 0 ≤ i → i < ((w * h : ℕ) : ℤ) → image i = c)
    (hdim : (2 ≤ w ∧ 2 ≤ h) ∨ w * h ≤ 1) (k x y : ℕ) (hx : x < w) (hy : y < h) :
    get_value (newPyramid image w h) x y k = c ∧
      (∑ i ∈ Finset.range 5, kernel i) = 1 ∧
      (∑ i ∈ Finset.range 5, ∑ j ∈ Finset.range 5, kernel i * kernel j) = 1 := by
  refine ⟨?_, kernel_sum_one, kernel_double_sum_one⟩
  have hidx0 : (0 : ℤ) ≤ (x : ℤ) + (y : ℤ) * (w : ℤ) := by positivity
  have hidx : (x : ℤ) + (y : ℤ) * (w : ℤ) < ((w * h : ℕ) : ℤ) := by
    push_cast
    have h1 : (x : ℤ) + (y : ℤ) * (w : ℤ) < ((y : ℤ) + 1) * (w : ℤ) := by
      have : (x : ℤ) < (w : ℤ) := by exact_mod_cast hx
      nlinarith
    have h2 : ((y : ℤ) + 1) * (w : ℤ) ≤ (h : ℤ) * (w : ℤ) := by
      apply mul_le_mul_of_nonneg_right (by exact_mod_cast hy) (by positivity)
    nlinarith
  rcases hdim with ⟨hw, hh⟩ | hwh
  · exact pyrLevels_const image w h c hw hh hb k _ hidx0 hidx
  · have hlv : (newPyramid image w h).levels k = image := by
      induction k with
      | zero => rfl
      | succ k ih =>
        show pyrLevels image w h (k + 1) = image
        rw [pyrLevels, if_pos hwh]
    show (newPyramid image w h).levels k ((x : ℤ) + (y : ℤ) * (w : ℤ)) = c
    rw [hlv]
    exact hb _ hidx0 hidx

theorem C6_uniform_pyramid_witness :
    ((∀ i : ℤ, 0 ≤ i → i < ((2 * 2 : ℕ) : ℤ) → (fun _ : ℤ => (3 : ℝ)) i = 3) ∧
      ((2 ≤ 2 ∧ 2 ≤ 2) ∨ 2 * 2 ≤ 1) ∧ 0 < 2 ∧ 0 < 2) ∧
      (get_value (newPyramid (fun _ : ℤ => (3 : ℝ)) 2 2) 0 0 1 = 3 ∧
        (∑ i ∈ Finset.range 5, kernel i) = 1 ∧
        (∑ i ∈ Finset.range 5, ∑ j ∈ Finset.range 5, kernel i * kernel j) = 1) :=
  ⟨⟨fun _ _ _ => rfl, Or.inl ⟨le_refl 2, le_refl 2⟩, by norm_num, by norm_num⟩,
    C6_uniform_pyramid (fun _ => (3 : ℝ)) 2 2 3 (fun _ _ _ => rfl)
      (Or.inl ⟨le_refl 2, le_refl 2⟩) 1 0 0 (by norm_num) (by norm_num)⟩

/-! ### Helper lemmas: the 2×2 white vs. black scenario -/

lemma flat_index_lt (w h x y : ℕ) (hx : x < w) (hy : y < h) :
    (x : ℤ) + (y : ℤ) * (w : ℤ) < ((w * h : ℕ) : ℤ) := by
  push_cast
  have h1 : (x : ℤ) + (y : ℤ) * (w : ℤ) < ((y : ℤ) + 1) * (w : ℤ) := by
    have hxw : (x : ℤ) < (w : ℤ) := by exact_mod_cast hx
    nlinarith
  have h2 : ((y : ℤ) + 1) * (w : ℤ) ≤ (h : ℤ) * (w : ℤ) := by
    apply mul_le_mul_of_nonneg_right (by exact_mod_cast hy) (by positivity)
  nlinarith

/-- All pyramid levels of an image whose luminance buffer is uniformly `c`
read back as `c`, for images at least 2 pixels in each dimension. -/
lemma get_value_const_pyr (img : GoImage) (args : Parameters) (c : ℝ)
    (hw : 2 ≤ img.width) (hh : 2 ≤ img.height)
    (hb : ∀ i : ℤ, 0 ≤ i → i < ((img.width * img.height : ℕ) : ℤ) →
      lumBuffer img args.Gamma args.Luminance i = c)
    (x y k : ℕ) (hx : x < img.width) (hy : y < img.height) :
    get_value (luminancePyramid img args) x y k = c := by
  show pyrLevels (lumBuffer img args.Gamma args.Luminance) img.width img.height k
      ((x : ℤ) + (y : ℤ) * (img.width : ℤ)) = c
  exact pyrLevels_const _ _ _ _ hw hh hb k _ (by positivity) (flat_index_lt _ _ _ _ hx hy)

/-- The 2×2 all-white image of the spec scenario (all channels `0xffff`). -/
def whiteImage2 : GoImage := ⟨2, 2, fun _ _ => (65535, 65535, 65535, 65535)⟩

/-- The 2×2 all-black opaque image of the spec scenario. -/
def blackImage2 : GoImage := ⟨2, 2, fun _ _ => (0, 0, 0, 65535)⟩

/-- Luminance buffer value of a white pixel under the default parameters:
the `Y` row of the Adobe RGB matrix at `(1,1,1)`, times `Luminance = 100`. -/
noncomputable def whiteLum : ℝ := (0.297361 + 0.627355 + 0.0752847) * 100

lemma lumBuffer_white : ∀ i : ℤ, 0 ≤ i →
    i < ((whiteImage2.width * whiteImage2.height : ℕ) : ℤ) →
    lumBuffer whiteImage2 DefaultParameters.Gamma DefaultParameters.Luminance i = whiteLum := by
  intro i hi0 hi
  unfold lumBuffer
  rw [if_pos ⟨hi0, hi⟩]
  show lumOfPixel DefaultParameters.Gamma DefaultParameters.Luminance
      (65535, 65535, 65535, 65535) = whiteLum
  unfold lumOfPixel pixelXYZ adobe_rgb_to_xyz whiteLum
  norm_num [Real.one_rpow, DefaultParameters]

lemma lumBuffer_black : ∀ i : ℤ, 0 ≤ i →
    i < ((blackImage2.width * blackImage2.height : ℕ) : ℤ) →
    lumBuffer blackImage2 DefaultParameters.Gamma DefaultParameters.Luminance i = 0 := by
  intro i hi0 hi
  unfold lumBuffer
  rw [if_pos ⟨hi0, hi⟩]
  show lumOfPixel DefaultParameters.Gamma DefaultParameters.Luminance (0, 0, 0, 65535) = 0
  unfold lumOfPixel pixelXYZ adobe_rgb_to_xyz
  norm_num [Real.zero_rpow, DefaultParameters]

lemma sixty_four_lt_rpow : (64 : ℝ) < (10 : ℝ) ^ (1.9 : ℝ) := by
  have h10 : (0 : ℝ) ≤ 10 := by norm_num
  have hkey : ((10 : ℝ) ^ (1.9 : ℝ)) ^ (10 : ℕ) = (10 : ℝ) ^ (19 : ℕ) := by
    rw [← Real.rpow_natCast ((10 : ℝ) ^ (1.9 : ℝ)) 10, ← Real.rpow_mul h10,
      show (1.9 : ℝ) * ((10 : ℕ) : ℝ) = ((19 : ℕ) : ℝ) by norm_num, Real.rpow_natCast]
  have hpow : ((64 : ℝ)) ^ (10 : ℕ) < ((10 : ℝ) ^ (1.9 : ℝ)) ^ (10 : ℕ) := by
    rw [hkey]; norm_num
  exact lt_of_pow_lt_pow_left₀ 10 (Real.rpow_nonneg h10 _) hpow

lemma tviR_lt_one (la : ℝ) (hpos : 0 < la) (hlt : la < 1.9) : tviR la < 1 := by
  unfold tviR
  rw [if_neg (by linarith), if_neg (by linarith), if_neg (by linarith), if_pos hlt]
  have hbase0 : (0 : ℝ) ≤ 0.249 * la + 0.65 := by linarith
  have hbase : 0.249 * la + 0.65 ≤ 1.1231 := by linarith
  have h1 : (0.249 * la + 0.65) ^ (2.7 : ℝ) ≤ (1.1231 : ℝ) ^ (2.7 : ℝ) :=
    Real.rpow_le_rpow hbase0 hbase (by norm_num)
  have h2 : (1.1231 : ℝ) ^ (2.7 : ℝ) ≤ (1.1231 : ℝ) ^ ((3 : ℕ) : ℝ) :=
    Real.rpow_le_rpow_of_exponent_le (by norm_num) (by norm_num)
  rw [Real.rpow_natCast] at h2
  have h3 : (1.1231 : ℝ) ^ (3 : ℕ) < 1.42 := by norm_num
  linarith

/-- For adaptation luminances in `(1, 64)` the Ward Larson threshold stays
below 10 cd/m². -/
lemma tvi_lt_ten (x : ℝ) (h1 : 1 < x) (h64 : x < 64) : tvi x < 10 := by
  unfold tvi
  have hpos := Real.logb_pos (by norm_num : (1 : ℝ) < 10) h1
  have hlt : Real.logb 10 x < 1.9 := by
    rw [Real.logb_lt_iff_lt_rpow (by norm_num : (1 : ℝ) < 10) (by linarith : (0 : ℝ) < x)]
    exact lt_trans h64 sixty_four_lt_rpow
  calc (10 : ℝ) ^ tviR (Real.logb 10 x) < (10 : ℝ) ^ (1 : ℝ) :=
        Real.rpow_lt_rpow_of_exponent_lt (by norm_num) (tviR_lt_one _ hpos hlt)
    _ = 10 := Real.rpow_one 10

/-- Every pixel of the 2×2 white-vs-black comparison fails the luminance
test: the per-pixel `delta` is the full white luminance (≈ 100 cd/m²),
`factor` clamps to 1, and the visibility threshold at the adapted
luminance (≈ 50 cd/m²) is below 10 cd/m². -/
lemma fail_white_black (x y : ℕ) (hx : x < 2) (hy : y < 2) :
    failProp whiteImage2 blackImage2 DefaultParameters x y := by
  have hla : ∀ k, get_value (luminancePyramid whiteImage2 DefaultParameters) x y k = whiteLum :=
    fun k => get_value_const_pyr whiteImage2 DefaultParameters whiteLum (le_refl 2) (le_refl 2)
      lumBuffer_white x y k hx hy
  have hlb : ∀ k, get_value (luminancePyramid blackImage2 DefaultParameters) x y k = 0 :=
    fun k => get_value_const_pyr blackImage2 DefaultParameters 0 (le_refl 2) (le_refl 2)
      lumBuffer_black x y k hx hy
  unfold failProp
  set la := luminancePyramid whiteImage2 DefaultParameters with hla_def
  set lb := luminancePyramid blackImage2 DefaultParameters with hlb_def
  set al := adaptation (numOneDegreePixels DefaultParameters) with hal_def
  have hadapt : adaptAt la lb al x y = whiteLum * 0.5 := by
    unfold adaptAt
    rw [hla, hlb, add_zero]
    exact max_eq_left (by unfold whiteLum; norm_num)
  have hcontrast : ∀ i, contrastAt la lb x y i = 0 := by
    intro i
    unfold contrastAt
    simp only [hla, hlb]
    simp
  have hfactor : factorAt la lb (cpdSeq (pixelsPerDegree whiteImage2.width DefaultParameters))
      (f_freq whiteImage2.width DefaultParameters) al x y = 1 := by
    unfold factorAt
    simp only [hcontrast, zero_mul, Finset.sum_const_zero]
    norm_num
  have hdelta : deltaAt la lb x y = whiteLum := by
    unfold deltaAt
    rw [hla, hlb, sub_zero]
    exact abs_of_pos (by unfold whiteLum; norm_num)
  left
  rw [hdelta, hfactor, hadapt, one_mul]
  have htvi : tvi (whiteLum * 0.5) < 10 :=
    tvi_lt_ten _ (by unfold whiteLum; norm_num) (by unfold whiteLum; norm_num)
  have hwl : (10 : ℝ) < whiteLum := by unfold whiteLum; norm_num
  linarith

open scoped Classical in
lemma numFailed_white_black : numFailed whiteImage2 blackImage2 DefaultParameters = 4 := by
  unfold numFailed
  show (∑ y ∈ Finset.range 2, ∑ x ∈ Finset.range 2,
    if failProp whiteImage2 blackImage2 DefaultParameters x y then 1 else 0) = 4
  simp only [Finset.sum_range_succ, Finset.sum_range_zero]
  rw [if_pos (fail_white_black 0 0 (by norm_num) (by norm_num)),
    if_pos (fail_white_black 1 0 (by norm_num) (by norm_num)),
    if_pos (fail_white_black 0 1 (by norm_num) (by norm_num)),
    if_pos (fail_white_black 1 1 (by norm_num) (by norm_num))]
  norm_num

lemma yee_white_black :
    YeeCompare whiteImage2 blackImage2 DefaultParameters =
      (true, ⟨ReasonIndistinguishable, 4,
        errorSumTotal whiteImage2 blackImage2 DefaultParameters,
        some (diffImage whiteImage2 blackImage2 DefaultParameters)⟩) := by
  rw [YeeCompare, if_neg (by decide), if_neg (by decide), numFailed_white_black]
  have hlt : 4 < DefaultParameters.ThresholdPixels := by
    show 4 < 100
    norm_num
  rw [if_pos hlt]
  simp [hlt]

/-! ### Claim C3: the 2×2 white vs. black scenario -/

/-- Claim C3 counterexample: comparing the 2×2 all-white against the 2×2
all-black image under the default configuration does NOT return
`identical = false` with `Reason = ReasonVisiblyDifferent`: all 4 pixels
fail, but 4 is below the default `ThresholdPixels = 100`, so the verdict is
`identical = true` with `Reason = ReasonIndistinguishable`. -/
theorem C3_counterexample :
    ¬((YeeCompare whiteImage2 blackImage2 DefaultParameters).1 = false ∧
      (YeeCompare whiteImage2 blackImage2 DefaultParameters).2.Reason =
        ReasonVisiblyDifferent ∧
      (YeeCompare whiteImage2 blackImage2 DefaultParameters).2.NumPixelsFailed = 4) := by
  rw [yee_white_black]
  intro h
  exact absurd h.1 (by norm_num)

/-- Claim C3 (amended): comparing a 2×2 all-white image against a 2×2
all-black image under the default configuration returns `identical = true`
with `Reason = ReasonIndistinguishable` and `NumPixelsFailed = 4` (all four
pixels fail the perceptual test, but the count stays below the default
`ThresholdPixels = 100`). -/
theorem C3_scenario_white_black :
    (YeeCompare whiteImage2 blackImage2 DefaultParameters).1 = true ∧
      (YeeCompare whiteImage2 blackImage2 DefaultParameters).2.Reason =
        ReasonIndistinguishable ∧
      (YeeCompare whiteImage2 blackImage2 DefaultParameters).2.NumPixelsFailed = 4 := by
  rw [yee_white_black]
  exact ⟨rfl, rfl, rfl⟩

/-! ### Helper lemmas: symmetry of the per-pixel fusion -/

lemma adaptAt_symm (la lb : pyramid) (al x y : ℕ) :
    adaptAt la lb al x y = adaptAt lb la al x y := by
  unfold adaptAt
  rw [add_comm]

lemma contrastAt_symm (la lb : pyramid) (x y i : ℕ) :
    contrastAt la lb x y i = contrastAt lb la x y i := by
  unfold contrastAt
  rw [max_comm |get_value la x y i - get_value la x y (i + 1)|
      |get_value lb x y i - get_value lb x y (i + 1)|,
    max_comm |get_value la x y (i + 2)| |get_value lb x y (i + 2)|]

lemma factorAt_symm (la lb : pyramid) (cpd ff : ℕ → ℝ) (al x y : ℕ) :
    factorAt la lb cpd ff al x y = factorAt lb la cpd ff al x y := by
  unfold factorAt
  simp only [contrastAt_symm la lb, adaptAt_symm la lb]

lemma deltaAt_symm (la lb : pyramid) (x y : ℕ) :
    deltaAt la lb x y = deltaAt lb la x y := by
  unfold deltaAt
  exact abs_sub_comm _ _

lemma deltaEAt_symm (a b : GoImage) (args : Parameters) (adapt : ℝ) (x y : ℕ)
    (hw : a.width = b.width) :
    deltaEAt a b args adapt x y = deltaEAt b a args adapt x y := by
  unfold deltaEAt
  rw [hw]
  ring

lemma failProp_symm (a b : GoImage) (args : Parameters) (x y : ℕ)
    (hw : a.width = b.width) :
    failProp a b args x y ↔ failProp b a args x y := by
  unfold failProp
  rw [adaptAt_symm (luminancePyramid a args) (luminancePyramid b args),
    factorAt_symm (luminancePyramid a args) (luminancePyramid b args),
    deltaAt_symm (luminancePyramid a args) (luminancePyramid b args),
    deltaEAt_symm a b args _ x y hw, hw]

lemma binaryIdentical_symm (a b : GoImage) (hw : a.width = b.width)
    (hh : a.height = b.height) : binaryIdentical a b = binaryIdentical b a := by
  unfold binaryIdentical
  apply decide_eq_decide.mpr
  constructor
  · intro hp y hy x hx
    exact (hp y (by omega) x (by omega)).symm
  · intro hp y hy x hx
    exact (hp y (by omega) x (by omega)).symm

open scoped Classical in
lemma numFailed_symm (a b : GoImage) (args : Parameters) (hw : a.width = b.width)
    (hh : a.height = b.height) : numFailed a b args = numFailed b a args := by
  unfold numFailed
  rw [hw, hh]
  refine Finset.sum_congr rfl fun y _ => Finset.sum_congr rfl fun x _ => ?_
  exact if_congr (failProp_symm a b args x y hw) rfl rfl

/-! ### Claims C4 and C5 -/

/-- Claim C4: for every pair of images and every configuration, the number
of failed pixels is symmetric under swapping the two images — each
short-circuit path returns 0 for both orders, and the per-pixel fusion
(adapt average, max of absolute level differences, max-based denominator,
absolute luminance delta, squared chrominance deltas) is symmetric. -/
theorem C4_symmetry (a b : GoImage) (args : Parameters) :
    (YeeCompare a b args).2.NumPixelsFailed =
      (YeeCompare b a args).2.NumPixelsFailed := by
  by_cases hdim : (a.width, a.height) = (b.width, b.height)
  · have hw : a.width = b.width := congrArg Prod.fst hdim
    have hh : a.height = b.height := congrArg Prod.snd hdim
    have hd1 : ¬((a.width, a.height) ≠ (b.width, b.height)) := not_not_intro hdim
    have hd2 : ¬((b.width, b.height) ≠ (a.width, a.height)) := not_not_intro hdim.symm
    by_cases hid : binaryIdentical a b = true
    · have hid2 : binaryIdentical b a = true := by
        rw [← binaryIdentical_symm a b hw hh]
        exact hid
      rw [YeeCompare, if_neg hd1, if_pos hid, YeeCompare, if_neg hd2, if_pos hid2]
    · have hid2 : ¬(binaryIdentical b a = true) := by
        rw [← binaryIdentical_symm a b hw hh]
        exact hid
      rw [YeeCompare, if_neg hd1, if_neg hid, YeeCompare, if_neg hd2, if_neg hid2]
      show numFailed a b args = numFailed b a args
      exact numFailed_symm a b args hw hh
  · have hd1 : (a.width, a.height) ≠ (b.width, b.height) := hdim
    have hd2 : (b.width, b.height) ≠ (a.width, a.height) := fun he => hdim he.symm
    rw [YeeCompare, if_pos hd1, YeeCompare, if_pos hd2]

/-- Claim C5: with images and all other configuration fields fixed,
`NumPixelsFailed` does not depend on `ThresholdPixels`, and raising the
threshold can only turn the verdict from "different" into
"indistinguishable" (the verdict on the full path is the monotone predicate
`NumPixelsFailed < ThresholdPixels`). -/
theorem C5_threshold_monotone (a b : GoImage) (lo : Bool) (fov gam L cf : ℝ)
    (t t' : ℕ) (ht : t ≤ t') :
    (YeeCompare a b ⟨lo, fov, gam, L, t, cf⟩).2.NumPixelsFailed =
      (YeeCompare a b ⟨lo, fov, gam, L, t', cf⟩).2.NumPixelsFailed ∧
      ((YeeCompare a b ⟨lo, fov, gam, L, t, cf⟩).1 = true →
        (YeeCompare a b ⟨lo, fov, gam, L, t', cf⟩).1 = true) := by
  by_cases hdim : (a.width, a.height) ≠ (b.width, b.height)
  · rw [YeeCompare, if_pos hdim, YeeCompare, if_pos hdim]
    exact ⟨rfl, fun h => absurd h (by norm_num)⟩
  · by_cases hid : binaryIdentical a b = true
    · rw [YeeCompare, if_neg hdim, if_pos hid, YeeCompare, if_neg hdim, if_pos hid]
      exact ⟨rfl, fun _ => rfl⟩
    · rw [YeeCompare, if_neg hdim, if_neg hid, YeeCompare, if_neg hdim, if_neg hid]
      have hnf : numFailed a b ⟨lo, fov, gam, L, t, cf⟩ =
          numFailed a b ⟨lo, fov, gam, L, t', cf⟩ := rfl
      constructor
      · exact hnf
      · intro h
        simp only [decide_eq_true_eq] at h ⊢
        have h2 : numFailed a b ⟨lo, fov, gam, L, t, cf⟩ < t := h
        have h3 : numFailed a b ⟨lo, fov, gam, L, t', cf⟩ < t' := by
          rw [← hnf]
          exact lt_of_lt_of_le h2 ht
        exact h3

theorem C5_threshold_monotone_witness :
    0 ≤ 1 ∧
      ((YeeCompare ⟨1, 1, fun _ _ => (0, 0, 0, 0)⟩ ⟨1, 1, fun _ _ => (7, 0, 0, 0)⟩
            ⟨false, 45, 2.2, 100, 0, 1⟩).2.NumPixelsFailed =
          (YeeCompare ⟨1, 1, fun _ _ => (0, 0, 0, 0)⟩ ⟨1, 1, fun _ _ => (7, 0, 0, 0)⟩
            ⟨false, 45, 2.2, 100, 1, 1⟩).2.NumPixelsFailed ∧
        ((YeeCompare ⟨1, 1, fun _ _ => (0, 0, 0, 0)⟩ ⟨1, 1, fun _ _ => (7, 0, 0, 0)⟩
              ⟨false, 45, 2.2, 100, 0, 1⟩).1 = true →
          (YeeCompare ⟨1, 1, fun _ _ => (0, 0, 0, 0)⟩ ⟨1, 1, fun _ _ => (7, 0, 0, 0)⟩
            ⟨false, 45, 2.2, 100, 1, 1⟩).1 = true)) :=
  ⟨Nat.zero_le 1,
    C5_threshold_monotone ⟨1, 1, fun _ _ => (0, 0, 0, 0)⟩ ⟨1, 1, fun _ _ => (7, 0, 0, 0)⟩
      false 45 2.2 100 1 0 1 (Nat.zero_le 1)⟩

end Perceptualdiff
